import Mathlib

/-!
Shallow embedding of the Linguist flashcard application (`app.py`).

The persistent store (SQLite via SQLAlchemy) is modelled as an explicit
state `DB` holding the three tables as lists in insertion order, together
with the next auto-increment primary key for each table.  Every CRUD
accessor of `app.py` becomes a pure function from `DB` to a result paired
with the successor state; every Flask request handler becomes a pure
function from the authenticated user id, the path/form inputs and the
`DB` to an observable `HResult` (rendered page, redirect with flashed
message, or a 400 error) paired with the successor state.
-/

namespace Linguist

/-- A row of the `users` table (`class User` in `app.py`). -/
structure UserR where
  id : Nat
  name : String
  email : String
  password : String
deriving DecidableEq, Repr

/-- A row of the `decks` table (`class Deck` in `app.py`). -/
structure DeckR where
  id : Nat
  name : String
  user_id : Nat
deriving DecidableEq, Repr

/-- A row of the `cards` table (`class Card` in `app.py`); `tip` and
`deck_id` are nullable columns, hence `Option`. -/
structure CardR where
  id : Nat
  user_id : Nat
  word : String
  translation : String
  tip : Option String
  deck_id : Option Nat
deriving DecidableEq, Repr

/-- The dictionary produced by `Card.to_dict` in `app.py`: the four keys
`id`, `word`, `translation`, `tip`. -/
structure CardDict where
  id : Nat
  word : String
  translation : String
  tip : Option String
deriving DecidableEq, Repr

/-- `Card.to_dict` of `app.py`. -/
def CardR.to_dict (c : CardR) : CardDict :=
  ⟨c.id, c.word, c.translation, c.tip⟩

/-- The database state: the three tables in insertion order plus the next
auto-increment primary key of each table. -/
structure DB where
  users : List UserR
  decks : List DeckR
  cards : List CardR
  nextUserId : Nat
  nextDeckId : Nat
  nextCardId : Nat
deriving DecidableEq, Repr

/-- The empty database right after `setup_database` creates the tables
(SQLite auto-increment keys start at 1). -/
def DB.empty : DB := ⟨[], [], [], 1, 1, 1⟩

/-- Modelled from the spec: §4.1 credential service.  `pwd_context.hash`
is the external passlib/bcrypt primitive (not part of this repository);
it is modelled as an injective salted tagging function producing a
bcrypt-shaped string, distinct from the raw password. -/
def pwd_hash (salt : Nat) (password : String) : String :=
  "$2b$12$" ++ toString salt ++ "$" ++ password

/-- Modelled from the spec: §4.1 credential service.  `pwd_context.verify`
is the external passlib/bcrypt primitive; for the hash model above a raw
password verifies against a stored hash when the hash carries it behind
its salt. -/
def pwd_verify (raw stored : String) : Bool :=
  stored.endsWith ("$" ++ raw)

/-- `user_create` of `app.py`: rejects a duplicate email, otherwise
stores the salted hash of the password and returns the fresh row.
The bcrypt salt drawn by the library is passed in explicitly. -/
def user_create (name email password : String) (salt : Nat) (db : DB) :
    Option UserR × DB :=
  if db.users.any (fun u => u.email == email) then
    (none, db)
  else
    let new_user : UserR := ⟨db.nextUserId, name, email, pwd_hash salt password⟩
    (some new_user,
      { db with users := db.users ++ [new_user], nextUserId := db.nextUserId + 1 })

/-- `user_get_by_id` of `app.py` (`session.get(User, user_id)`). -/
def user_get_by_id (user_id : Nat) (db : DB) : Option UserR :=
  db.users.find? (fun u => u.id == user_id)

/-- `user_get_by_email` of `app.py`. -/
def user_get_by_email (email : String) (db : DB) : Option UserR :=
  db.users.find? (fun u => u.email == email)

/-- `user_update_name` of `app.py`. -/
def user_update_name (user_id : Nat) (name : String) (db : DB) :
    Option UserR × DB :=
  match db.users.find? (fun u => u.id == user_id) with
  | some u =>
      (some { u with name := name },
        { db with users :=
            db.users.map (fun v => if v.id == user_id then { v with name := name } else v) })
  | none => (none, db)

/-- `user_change_password` of `app.py`: the stored hash is replaced only
when the old password verifies; the fresh bcrypt salt is explicit. -/
def user_change_password (user_id : Nat) (old_password new_password : String)
    (salt : Nat) (db : DB) : Bool × DB :=
  match db.users.find? (fun u => u.id == user_id) with
  | some u =>
      if pwd_verify old_password u.password then
        (true,
          { db with users :=
              db.users.map (fun v =>
                if v.id == user_id then { v with password := pwd_hash salt new_password } else v) })
      else (false, db)
  | none => (false, db)

/-- `user_delete_by_id` of `app.py`.  `session.delete(user)` triggers the
ORM cascades declared on `User.decks` and `User.cards`
(`cascade="all, delete-orphan"`): every deck owned by the user is deleted,
which in turn cascades to the cards of each such deck, and every card
owned by the user is deleted. -/
def user_delete_by_id (user_id : Nat) (db : DB) : Bool × DB :=
  match db.users.find? (fun u => u.id == user_id) with
  | some _ =>
      (true,
        { db with
          users := db.users.filter (fun u => !(u.id == user_id)),
          decks := db.decks.filter (fun d => !(d.user_id == user_id)),
          cards := db.cards.filter (fun c =>
            !(c.user_id == user_id) &&
            !(db.decks.any (fun d => d.user_id == user_id && c.deck_id == some d.id))) })
  | none => (false, db)

/-- `deck_create` of `app.py`. -/
def deck_create (name : String) (user_id : Nat) (db : DB) : DeckR × DB :=
  let new_deck : DeckR := ⟨db.nextDeckId, name, user_id⟩
  (new_deck,
    { db with decks := db.decks ++ [new_deck], nextDeckId := db.nextDeckId + 1 })

/-- `deck_get_by_id` of `app.py` (`session.get(Deck, deck_id)`). -/
def deck_get_by_id (deck_id : Nat) (db : DB) : Option DeckR :=
  db.decks.find? (fun d => d.id == deck_id)

/-- `deck_update` of `app.py`: renames the deck, touching nothing else. -/
def deck_update (deck_id : Nat) (name : String) (db : DB) :
    Option DeckR × DB :=
  match db.decks.find? (fun d => d.id == deck_id) with
  | some d =>
      (some { d with name := name },
        { db with decks :=
            db.decks.map (fun e => if e.id == deck_id then { e with name := name } else e) })
  | none => (none, db)

/-- `deck_delete_by_id` of `app.py`.  `session.delete(deck)` triggers the
ORM cascade declared on `Deck.cards`: every card filed in the deck is
deleted with it. -/
def deck_delete_by_id (deck_id : Nat) (db : DB) : Bool × DB :=
  match db.decks.find? (fun d => d.id == deck_id) with
  | some _ =>
      (true,
        { db with
          decks := db.decks.filter (fun d => !(d.id == deck_id)),
          cards := db.cards.filter (fun c => !(c.deck_id == some deck_id)) })
  | none => (false, db)

/-- `card_create` of `app.py`. -/
def card_create (user_id : Nat) (word translation : String)
    (tip : Option String) (deck_id : Option Nat) (db : DB) : CardR × DB :=
  let new_card : CardR := ⟨db.nextCardId, user_id, word, translation, tip, deck_id⟩
  (new_card,
    { db with cards := db.cards ++ [new_card], nextCardId := db.nextCardId + 1 })

/-- `card_get_by_id` of `app.py` (`session.get(Card, card_id)`). -/
def card_get_by_id (card_id : Nat) (db : DB) : Option CardR :=
  db.cards.find? (fun c => c.id == card_id)

/-- SQL `LIKE` pattern matching as SQLite evaluates `x ILIKE pattern`:
`%` matches any run of characters, `_` matches exactly one character, any
other pattern character matches itself up to ASCII case. -/
def likeMatch : List Char → List Char → Bool
  | [], s => s.isEmpty
  | p :: ps, s =>
      if p = '%' then (s.tails).any (fun t => likeMatch ps t)
      else
        match s with
        | [] => false
        | c :: s2 =>
            if p = '_' then likeMatch ps s2
            else (p.toLower == c.toLower) && likeMatch ps s2

/-- `tip ILIKE term` on the nullable `tip` column: SQL NULL never
matches. -/
def likeTip (term : List Char) (tip : Option String) : Bool :=
  match tip with
  | some t => likeMatch term t.data
  | none => false

/-- `card_filter` of `app.py`: the query
`word ILIKE term OR translation ILIKE term OR tip ILIKE term` with
`term = "%" ++ sub_word ++ "%"`; a NULL `tip` never matches. -/
def card_filter (sub_word : String) (db : DB) : List CardR :=
  db.cards.filter (fun c =>
    likeMatch ('%' :: sub_word.data ++ ['%']) c.word.data ||
    likeMatch ('%' :: sub_word.data ++ ['%']) c.translation.data ||
    likeTip ('%' :: sub_word.data ++ ['%']) c.tip)

/-- The three `if value is not None: set field` statements of
`card_update` in `app.py`, applied to one card. -/
def applyCardUpd (word translation tip : Option String) (c : CardR) : CardR :=
  let c1 := match word with | some w => { c with word := w } | none => c
  let c2 := match translation with | some t => { c1 with translation := t } | none => c1
  match tip with | some t => { c2 with tip := some t } | none => c2

/-- `card_update` of `app.py`: each of word/translation/tip is written
only when supplied (not `None`); everything else is untouched. -/
def card_update (card_id : Nat) (word translation tip : Option String)
    (db : DB) : Option CardR × DB :=
  match db.cards.find? (fun c => c.id == card_id) with
  | some c =>
      (some (applyCardUpd word translation tip c),
        { db with cards :=
            db.cards.map (fun d =>
              if d.id == card_id then applyCardUpd word translation tip d else d) })
  | none => (none, db)

/-- `card_delete_by_id` of `app.py`. -/
def card_delete_by_id (card_id : Nat) (db : DB) : Bool × DB :=
  match db.cards.find? (fun c => c.id == card_id) with
  | some _ =>
      (true, { db with cards := db.cards.filter (fun c => !(c.id == card_id)) })
  | none => (false, db)

/-- `pat` matches the front of `s` up to ASCII case (helper for the
spec-side substring predicate). -/
def startsLower : List Char → List Char → Bool
  | [], _ => true
  | _ :: _, [] => false
  | p :: ps, c :: s => (p.toLower == c.toLower) && startsLower ps s

/-- Spec-side predicate (from the spec words, for comparison with
`card_filter`): `pat` occurs case-insensitively as a contiguous substring
of `s`. -/
def occursCI : List Char → List Char → Bool
  | pat, [] => pat.isEmpty
  | pat, c :: s => startsLower pat (c :: s) || occursCI pat s

/-- Substring match against the nullable tip: an absent tip never
matches. -/
def occursTip (pat : List Char) (tip : Option String) : Bool :=
  match tip with
  | some t => occursCI pat t.data
  | none => false

/-- Modelled from the spec: the filter operation as the spec words it — a
case-insensitive substring match of the search string against word,
translation, or tip, keeping exactly the matching cards. -/
def card_filter_spec (sub_word : String) (db : DB) : List CardR :=
  db.cards.filter (fun c =>
    occursCI sub_word.data c.word.data ||
    occursCI sub_word.data c.translation.data ||
    occursTip sub_word.data c.tip)

/-- Exchange the entries at positions `i` and `j` (identity when either
index is out of range): one step of the Fisher–Yates loop. -/
def swapAt2 (l : List α) (i j : Nat) : List α :=
  match l.get? i, l.get? j with
  | some a, some b => (l.set i b).set j a
  | _, _ => l

/-- Modelled from the spec: §4.4 — `random.shuffle` is the external
Python library Fisher–Yates loop
`for i in reversed(range(1, len(x))): j = randbelow(i+1); swap x[i], x[j]`;
the stream of random draws is passed in explicitly as `picks`. -/
def shuffle (picks : List Nat) (l : List α) : List α :=
  (List.range (l.length - 1)).foldl
    (fun acc k =>
      let i := l.length - 1 - k
      let j := picks.getD k 0 % (i + 1)
      swapAt2 acc i j)
    l

/-- The cards filed in a deck, as the ORM relationship `deck.cards`
loads them (insertion order). -/
def deckCards (deck_id : Nat) (db : DB) : List CardR :=
  db.cards.filter (fun c => c.deck_id == some deck_id)

/-! ### Request handlers

Each handler runs after `login_required` admitted the authenticated user
`uid`.  The observable outcome is a rendered template (with the data
handed to it), a redirect carrying the flashed `(message, category)`
pair, or the 400 error Flask raises when `request.form[...]` misses a
key. -/

/-- The observable outcome of one request. -/
inductive HResult where
  | badRequest
  | redirectIndex (msg cat : String)
  | redirectShowCards (deck_id : Option Nat) (msg cat : String)
  | renderCards (deck : DeckR) (cards : List CardR)
  | renderEditCard (card : CardR)
  | renderReview (deck : DeckR) (cards : List CardDict)
deriving DecidableEq, Repr

def msgDeckNF : String := "Колоду не знайдено або у вас немає доступу."
def msgCardNF : String := "Картку не знайдено або у вас немає доступу."
def msgCardAdded : String := "Картку додано успішно!"
def msgRequired : String := "Помилка: слово та переклад є обов\x27язковими."
def msgCardUpdated : String := "Картку оновлено успішно!"
def msgCardDeleted : String := "Картку видалено успішно!"
def msgDeckAdded : String := "Колоду додано успішно!"
def msgDeckNameEmpty : String := "Помилка: ім\x27я колоди не може бути порожнім."
def msgDeckDeleted : String := "Колоду та всі картки в ній видалено успішно!"

/-- `GET /deck/<deck_id>` (`show_cards_in_deck` in `app.py`). -/
def show_cards_in_deck (uid deck_id : Nat) (db : DB) : HResult × DB :=
  match deck_get_by_id deck_id db with
  | none => (.redirectIndex msgDeckNF "danger", db)
  | some deck =>
      if deck.user_id != uid then (.redirectIndex msgDeckNF "danger", db)
      else (.renderCards deck (deckCards deck_id db), db)

/-- The form of `POST /add_card/<deck_id>`: `word` and `translation` are
read with `request.form[...]` (absent key → 400), `tip` with
`request.form.get` (absent key → `None`). -/
structure AddCardForm where
  word : Option String
  translation : Option String
  tip : Option String
deriving DecidableEq, Repr

/-- `POST /add_card/<deck_id>` (`add_card_to_deck` in `app.py`). -/
def add_card_to_deck (uid deck_id : Nat) (form : AddCardForm) (db : DB) :
    HResult × DB :=
  match form.word, form.translation with
  | some word, some translation =>
      (match deck_get_by_id deck_id db with
       | none => (.redirectIndex msgDeckNF "danger", db)
       | some deck =>
          if deck.user_id != uid then (.redirectIndex msgDeckNF "danger", db)
          else if word != "" && translation != "" then
            let db2 := (card_create uid word translation form.tip (some deck_id) db).2
            (.redirectShowCards (some deck_id) msgCardAdded "success", db2)
          else
            (.redirectShowCards (some deck_id) msgRequired "danger", db))
  | _, _ => (.badRequest, db)

/-- `GET /edit_card/<card_id>` (`edit_card` in `app.py`). -/
def edit_card (uid card_id : Nat) (db : DB) : HResult × DB :=
  match card_get_by_id card_id db with
  | none => (.redirectIndex msgCardNF "danger", db)
  | some card =>
      if card.user_id != uid then (.redirectIndex msgCardNF "danger", db)
      else (.renderEditCard card, db)

/-- The form of `POST /update_card/<card_id>`: all three fields are read
with `request.form.get` (absent key → `None`, present empty field → ""). -/
structure UpdateCardForm where
  word : Option String
  translation : Option String
  tip : Option String
deriving DecidableEq, Repr

/-- `POST /update_card/<card_id>` (`update_card` in `app.py`). -/
def update_card (uid card_id : Nat) (form : UpdateCardForm) (db : DB) :
    HResult × DB :=
  match card_get_by_id card_id db with
  | none => (.redirectIndex msgCardNF "danger", db)
  | some card =>
      if card.user_id != uid then (.redirectIndex msgCardNF "danger", db)
      else
        let db2 := (card_update card_id form.word form.translation form.tip db).2
        (.redirectShowCards card.deck_id msgCardUpdated "success", db2)

/-- `POST /delete_card/<card_id>` (`delete_card` in `app.py`). -/
def delete_card (uid card_id : Nat) (db : DB) : HResult × DB :=
  match card_get_by_id card_id db with
  | none => (.redirectIndex msgCardNF "danger", db)
  | some card =>
      if card.user_id != uid then (.redirectIndex msgCardNF "danger", db)
      else
        let db2 := (card_delete_by_id card_id db).2
        (.redirectShowCards card.deck_id msgCardDeleted "success", db2)

/-- `POST /add_deck` (`add_deck` in `app.py`); `deck_name` is read with
`request.form.get`, and Python truthiness treats `None` and "" alike. -/
def add_deck (uid : Nat) (deck_name : Option String) (db : DB) :
    HResult × DB :=
  if deck_name.getD "" != "" then
    (.redirectIndex msgDeckAdded "success", (deck_create (deck_name.getD "") uid db).2)
  else
    (.redirectIndex msgDeckNameEmpty "danger", db)

/-- `POST /delete_deck/<deck_id>` (`delete_deck` in `app.py`). -/
def delete_deck (uid deck_id : Nat) (db : DB) : HResult × DB :=
  match deck_get_by_id deck_id db with
  | none => (.redirectIndex msgDeckNF "danger", db)
  | some deck =>
      if deck.user_id != uid then (.redirectIndex msgDeckNF "danger", db)
      else
        (.redirectIndex msgDeckDeleted "success", (deck_delete_by_id deck_id db).2)

/-- `GET /review/<deck_id>` (`review_deck` in `app.py`); the random draws
consumed by `random.shuffle` are passed in as `picks`. -/
def review_deck (uid deck_id : Nat) (picks : List Nat) (db : DB) :
    HResult × DB :=
  match deck_get_by_id deck_id db with
  | none => (.redirectIndex msgDeckNF "danger", db)
  | some deck =>
      if deck.user_id != uid then (.redirectIndex msgDeckNF "danger", db)
      else
        (.renderReview deck (shuffle picks ((deckCards deck_id db).map CardR.to_dict)), db)

/-! ### Database well-formedness and the transition system -/

/-- Primary-key discipline SQLite maintains: ids are unique per table and
below the next auto-increment value. -/
def DB.WF (db : DB) : Prop :=
  ((db.users.map fun u => u.id).Nodup ∧ ∀ u ∈ db.users, u.id < db.nextUserId) ∧
  ((db.decks.map fun d => d.id).Nodup ∧ ∀ d ∈ db.decks, d.id < db.nextDeckId) ∧
  ((db.cards.map fun c => c.id).Nodup ∧ ∀ c ∈ db.cards, c.id < db.nextCardId)

/-- One observable state transition of the application: any mutating CRUD
accessor or any mutating request handler of `app.py`. -/
inductive Step : DB → DB → Prop where
  | userCreate (name email password : String) (salt : Nat) (db : DB) :
      Step db (user_create name email password salt db).2
  | userUpdateName (user_id : Nat) (name : String) (db : DB) :
      Step db (user_update_name user_id name db).2
  | userChangePassword (user_id : Nat) (old_password new_password : String)
      (salt : Nat) (db : DB) :
      Step db (user_change_password user_id old_password new_password salt db).2
  | userDelete (user_id : Nat) (db : DB) :
      Step db (user_delete_by_id user_id db).2
  | deckCreate (name : String) (user_id : Nat) (db : DB) :
      Step db (deck_create name user_id db).2
  | deckUpdate (deck_id : Nat) (name : String) (db : DB) :
      Step db (deck_update deck_id name db).2
  | deckDelete (deck_id : Nat) (db : DB) :
      Step db (deck_delete_by_id deck_id db).2
  | cardCreate (user_id : Nat) (word translation : String) (tip : Option String)
      (deck_id : Option Nat) (db : DB) :
      Step db (card_create user_id word translation tip deck_id db).2
  | cardUpdate (card_id : Nat) (word translation tip : Option String) (db : DB) :
      Step db (card_update card_id word translation tip db).2
  | cardDelete (card_id : Nat) (db : DB) :
      Step db (card_delete_by_id card_id db).2
  | handlerAddCard (uid deck_id : Nat) (form : AddCardForm) (db : DB) :
      Step db (add_card_to_deck uid deck_id form db).2
  | handlerUpdateCard (uid card_id : Nat) (form : UpdateCardForm) (db : DB) :
      Step db (update_card uid card_id form db).2
  | handlerDeleteCard (uid card_id : Nat) (db : DB) :
      Step db (delete_card uid card_id db).2
  | handlerAddDeck (uid : Nat) (deck_name : Option String) (db : DB) :
      Step db (add_deck uid deck_name db).2
  | handlerDeleteDeck (uid deck_id : Nat) (db : DB) :
      Step db (delete_deck uid deck_id db).2

/-- A database state the application can reach from the freshly created
(empty) store. -/
def Reachable (db : DB) : Prop :=
  Relation.ReflTransGen Step DB.empty db

/-- No LIKE wildcard occurs in the string: the only case the spec's
substring reading of `card_filter` can be compared against. -/
def noWild (s : List Char) : Prop :=
  ∀ c ∈ s, c ≠ '%' ∧ c ≠ '_'

/-! ### Auxiliary lemmas -/

theorem pwd_hash_ne_plain (salt : Nat) (p : String) : pwd_hash salt p ≠ p := by
  intro h
  have hlen : (pwd_hash salt p).length = p.length := congrArg String.length h
  rw [pwd_hash, String.length_append, String.length_append,
    String.length_append] at hlen
  have h7 : ("$2b$12$" : String).length = 7 := rfl
  have h1 : ("$" : String).length = 1 := rfl
  rw [h7, h1] at hlen
  omega

theorem find?_mem_pred {α} (l : List α) (p : α → Bool) (x : α) (hx : x ∈ l)
    (hp : p x = true) : ∃ y, l.find? p = some y := by
  cases h : l.find? p with
  | some y => exact ⟨y, rfl⟩
  | none => exact absurd hp (List.find?_eq_none.mp h x hx)

theorem find?_map_upd (l : List CardR) (cid : Nat) (u : CardR → CardR)
    (hu : ∀ d : CardR, (u d).id = d.id) (c : CardR)
    (h : l.find? (fun x => x.id == cid) = some c) :
    (l.map fun d => if d.id == cid then u d else d).find?
      (fun x => x.id == cid) = some (u c) := by
  induction l with
  | nil => simp at h
  | cons a t ih =>
    by_cases ha : (a.id == cid) = true
    · rw [@List.find?_cons_of_pos CardR (fun x => x.id == cid) a t ha] at h
      injection h with h
      subst h
      simp only [List.map_cons, if_pos ha]
      exact @List.find?_cons_of_pos CardR (fun x => x.id == cid) (u a) _
        (by show ((u a).id == cid) = true; rw [hu a]; exact ha)
    · rw [@List.find?_cons_of_neg CardR (fun x => x.id == cid) a t ha] at h
      simp only [List.map_cons, if_neg ha]
      rw [@List.find?_cons_of_neg CardR (fun x => x.id == cid) a _ ha]
      exact ih h

theorem startsLower_nil (ps : List Char) : startsLower ps [] = ps.isEmpty := by
  cases ps <;> rfl

theorem likeMatch_pct_noWild (ps : List Char) (h : noWild ps) :
    ∀ s : List Char, likeMatch (ps ++ ['%']) s = startsLower ps s := by
  induction ps with
  | nil =>
      intro s
      simp only [List.nil_append, likeMatch, if_pos rfl]
      apply List.any_eq_true.mpr
      exact ⟨[], (List.mem_tails _ _).mpr List.nil_suffix, rfl⟩
  | cons p ps ih =>
      intro s
      have hp : p ≠ '%' := (h p (List.mem_cons_self _ _)).1
      have hu : p ≠ '_' := (h p (List.mem_cons_self _ _)).2
      have hps : noWild ps := fun c hc => h c (List.mem_cons_of_mem _ hc)
      cases s with
      | nil =>
          simp only [List.cons_append, likeMatch, if_neg hp]
          rfl
      | cons c s2 =>
          simp only [List.cons_append, likeMatch, if_neg hp, if_neg hu,
            List.append_eq]
          rw [ih hps s2]
          rfl

theorem tails_any_starts (ps : List Char) :
    ∀ t : List Char, (t.tails).any (fun u => startsLower ps u) = occursCI ps t := by
  intro t
  induction t with
  | nil =>
      show (List.tails []).any (fun u => startsLower ps u) = occursCI ps []
      simp only [List.tails, List.any_cons, List.any_nil, Bool.or_false]
      rw [startsLower_nil]
      rfl
  | cons c t2 ih =>
      rw [List.tails_cons]
      simp only [List.any_cons]
      rw [ih]
      rfl

theorem likeMatch_wrap (ps : List Char) (h : noWild ps) (t : List Char) :
    likeMatch ('%' :: (ps ++ ['%'])) t = occursCI ps t := by
  simp only [likeMatch, if_pos rfl]
  have he : ∀ u, likeMatch (ps ++ ['%']) u = startsLower ps u :=
    likeMatch_pct_noWild ps h
  simp only [he]
  exact tails_any_starts ps t

theorem set_cons_perm {α} :
    ∀ (t : List α) (m : Nat) (b a : α), t.get? m = some b →
      (b :: t.set m a).Perm (a :: t) := by
  intro t
  induction t with
  | nil => intro m b a h; simp at h
  | cons c t2 ih =>
      intro m b a h
      cases m with
      | zero =>
          have hbc : b = c := by injection h with h2; exact h2.symm
          subst hbc
          exact List.Perm.swap _ _ t2
      | succ k =>
          have h2 : t2.get? k = some b := h
          show (b :: c :: t2.set k a).Perm (a :: c :: t2)
          exact ((List.Perm.swap c b _).trans ((ih k b a h2).cons c)).trans
            (List.Perm.swap a c t2)

theorem set_set_perm {α} :
    ∀ (l : List α) (i j : Nat) (a b : α), l.get? i = some a → l.get? j = some b →
      ((l.set i b).set j a).Perm l := by
  intro l
  induction l with
  | nil => intro i j a b hi; simp at hi
  | cons x t ih =>
      intro i j a b hi hj
      cases i with
      | zero =>
          have hax : a = x := by injection hi with h2; exact h2.symm
          subst hax
          cases j with
          | zero =>
              have hbx : b = a := by injection hj with h2; exact h2.symm
              subst hbx
              simp
          | succ m =>
              have hj2 : t.get? m = some b := hj
              show (b :: t.set m a).Perm (a :: t)
              exact set_cons_perm t m b a hj2
      | succ n =>
          have hi2 : t.get? n = some a := hi
          cases j with
          | zero =>
              have hbx : b = x := by injection hj with h2; exact h2.symm
              subst hbx
              show (a :: t.set n b).Perm (b :: t)
              exact set_cons_perm t n a b hi2
          | succ m =>
              have hj2 : t.get? m = some b := hj
              show (x :: (t.set n b).set m a).Perm (x :: t)
              exact (ih n m a b hi2 hj2).cons x

theorem swapAt2_perm {α} (l : List α) (i j : Nat) : (swapAt2 l i j).Perm l := by
  unfold swapAt2
  cases hi : l.get? i with
  | none => simp [hi]
  | some a =>
      cases hj : l.get? j with
      | none => simp [hi, hj]
      | some b =>
          simp only [hi, hj]
          exact set_set_perm l i j a b hi hj

theorem foldl_swap_perm {α} (f : List α → Nat → List α)
    (hf : ∀ acc k, (f acc k).Perm acc) :
    ∀ (ks : List Nat) (acc : List α), (ks.foldl f acc).Perm acc := by
  intro ks
  induction ks with
  | nil => intro acc; exact List.Perm.refl acc
  | cons k ks ih =>
      intro acc
      exact (ih (f acc k)).trans (hf acc k)

theorem shuffle_perm {α} (picks : List Nat) (l : List α) :
    (shuffle picks l).Perm l := by
  unfold shuffle
  exact foldl_swap_perm _ (fun acc k => swapAt2_perm acc _ _) _ l

/-- The value an optional tip argument leaves in the tip column. -/
def tipUpd (tp old : Option String) : Option String :=
  match tp with
  | some x => some x
  | none => old

theorem applyCardUpd_eq (w t tp : Option String) (c : CardR) :
    applyCardUpd w t tp c =
      ⟨c.id, c.user_id, w.getD c.word, t.getD c.translation,
       tipUpd tp c.tip, c.deck_id⟩ := by
  cases w <;> cases t <;> cases tp <;> rfl

theorem applyCardUpd_id (w t tp : Option String) (c : CardR) :
    (applyCardUpd w t tp c).id = c.id := by
  cases w <;> cases t <;> cases tp <;> rfl

theorem card_update_eq (cid : Nat) (w t tp : Option String) (db : DB)
    (c : CardR) (hget : card_get_by_id cid db = some c) :
    card_update cid w t tp db =
      (some (applyCardUpd w t tp c),
       { db with cards :=
          db.cards.map (fun d =>
            if d.id == cid then applyCardUpd w t tp d else d) }) := by
  have hfind : db.cards.find? (fun x => x.id == cid) = some c := hget
  simp only [card_update, hfind]

theorem card_update_get_after (cid : Nat) (w t tp : Option String) (db : DB)
    (c : CardR) (hget : card_get_by_id cid db = some c) :
    card_get_by_id cid (card_update cid w t tp db).2 =
      some ⟨c.id, c.user_id, w.getD c.word, t.getD c.translation,
            tipUpd tp c.tip, c.deck_id⟩ := by
  have hfind : db.cards.find? (fun x => x.id == cid) = some c := hget
  rw [card_update_eq cid w t tp db c hget]
  show (db.cards.map fun d =>
      if d.id == cid then applyCardUpd w t tp d else d).find?
      (fun x => x.id == cid) = _
  rw [find?_map_upd db.cards cid (applyCardUpd w t tp)
    (applyCardUpd_id w t tp) c hfind, applyCardUpd_eq]

theorem find?_filter_not_self {α} (l : List α) (p : α → Bool) :
    (l.filter (fun x => !(p x))).find? p = none := by
  apply List.find?_eq_none.mpr
  intro x hx
  have h2 := (List.mem_filter.mp hx).2
  simp only [Bool.not_eq_eq_eq_not, Bool.not_true] at h2
  simp [h2]

/-! ### Deck primary-key discipline and owner preservation -/

/-- The deck-table part of the primary-key discipline: deck ids are
unique and below the next auto-increment value. -/
def DeckPK (db : DB) : Prop :=
  ((db.decks.map fun x => x.id).Nodup ∧ ∀ x ∈ db.decks, x.id < db.nextDeckId)

theorem nodupBound_append {α} (f : α → Nat) (l : List α) (x : α) (n : Nat)
    (h1 : (l.map f).Nodup) (h2 : ∀ a ∈ l, f a < n) (hx : f x = n) :
    ((l ++ [x]).map f).Nodup ∧ ∀ a ∈ l ++ [x], f a < n + 1 := by
  constructor
  · rw [List.map_append]
    refine List.Nodup.append h1 (List.nodup_singleton _) ?_
    intro a ha hb
    obtain ⟨y, hy, rfl⟩ := List.mem_map.mp ha
    have hlt : f y < n := h2 y hy
    simp only [List.map_cons, List.map_nil, List.mem_singleton] at hb
    omega
  · intro a ha
    rcases List.mem_append.mp ha with h | h
    · exact Nat.lt_succ_of_lt (h2 a h)
    · rw [List.mem_singleton] at h
      subst h
      omega

theorem nodupBound_map {α} (f : α → Nat) (l : List α) (g : α → α) (n : Nat)
    (hg : ∀ a, f (g a) = f a)
    (h1 : (l.map f).Nodup) (h2 : ∀ a ∈ l, f a < n) :
    ((l.map g).map f).Nodup ∧ ∀ a ∈ l.map g, f a < n := by
  have hmm : (l.map g).map f = l.map f := by
    rw [List.map_map]
    exact List.map_congr_left (fun a _ => hg a)
  constructor
  · rw [hmm]
    exact h1
  · intro a ha
    obtain ⟨y, hy, rfl⟩ := List.mem_map.mp ha
    rw [hg]
    exact h2 y hy

theorem nodupBound_filter {α} (f : α → Nat) (l : List α) (p : α → Bool) (n : Nat)
    (h1 : (l.map f).Nodup) (h2 : ∀ a ∈ l, f a < n) :
    ((l.filter p).map f).Nodup ∧ ∀ a ∈ l.filter p, f a < n := by
  constructor
  · exact List.Nodup.sublist (List.Sublist.map f (List.filter_sublist l)) h1
  · intro a ha
    exact h2 a (List.mem_filter.mp ha).1

theorem user_create_deckpart (n e p : String) (s : Nat) (db : DB) :
    (user_create n e p s db).2.decks = db.decks ∧
    (user_create n e p s db).2.nextDeckId = db.nextDeckId := by
  unfold user_create
  split <;> exact ⟨rfl, rfl⟩

theorem user_update_name_deckpart (uid : Nat) (nm : String) (db : DB) :
    (user_update_name uid nm db).2.decks = db.decks ∧
    (user_update_name uid nm db).2.nextDeckId = db.nextDeckId := by
  unfold user_update_name
  split <;> exact ⟨rfl, rfl⟩

theorem user_change_password_deckpart (uid : Nat) (op np : String) (s : Nat)
    (db : DB) :
    (user_change_password uid op np s db).2.decks = db.decks ∧
    (user_change_password uid op np s db).2.nextDeckId = db.nextDeckId := by
  unfold user_change_password
  split
  · split <;> exact ⟨rfl, rfl⟩
  · exact ⟨rfl, rfl⟩

theorem user_delete_nextdeck (uid : Nat) (db : DB) :
    (user_delete_by_id uid db).2.nextDeckId = db.nextDeckId := by
  unfold user_delete_by_id
  split <;> rfl

theorem user_delete_decks_sub (uid : Nat) (db : DB) (x : DeckR)
    (hx : x ∈ (user_delete_by_id uid db).2.decks) : x ∈ db.decks := by
  unfold user_delete_by_id at hx
  split at hx
  · exact (List.mem_filter.mp hx).1
  · exact hx

theorem deck_create_deckpart (nm : String) (uo : Nat) (db : DB) :
    (deck_create nm uo db).2.decks = db.decks ++ [⟨db.nextDeckId, nm, uo⟩] ∧
    (deck_create nm uo db).2.nextDeckId = db.nextDeckId + 1 :=
  ⟨rfl, rfl⟩

theorem deck_update_deckpart (did : Nat) (nm : String) (db : DB) :
    ((deck_update did nm db).2.decks = db.decks ∨
     (deck_update did nm db).2.decks =
       db.decks.map (fun e => if e.id == did then { e with name := nm } else e)) ∧
    (deck_update did nm db).2.nextDeckId = db.nextDeckId := by
  unfold deck_update
  split
  · exact ⟨Or.inr rfl, rfl⟩
  · exact ⟨Or.inl rfl, rfl⟩

theorem deck_delete_decks_sub (did : Nat) (db : DB) (x : DeckR)
    (hx : x ∈ (deck_delete_by_id did db).2.decks) : x ∈ db.decks := by
  unfold deck_delete_by_id at hx
  split at hx
  · exact (List.mem_filter.mp hx).1
  · exact hx

theorem deck_delete_nextdeck (did : Nat) (db : DB) :
    (deck_delete_by_id did db).2.nextDeckId = db.nextDeckId := by
  unfold deck_delete_by_id
  split <;> rfl

theorem card_create_deckpart (uo : Nat) (w t : String) (tp : Option String)
    (dk : Option Nat) (db : DB) :
    (card_create uo w t tp dk db).2.decks = db.decks ∧
    (card_create uo w t tp dk db).2.nextDeckId = db.nextDeckId :=
  ⟨rfl, rfl⟩

theorem card_update_deckpart (cid : Nat) (w t tp : Option String) (db : DB) :
    (card_update cid w t tp db).2.decks = db.decks ∧
    (card_update cid w t tp db).2.nextDeckId = db.nextDeckId := by
  unfold card_update
  split <;> exact ⟨rfl, rfl⟩

theorem card_delete_deckpart (cid : Nat) (db : DB) :
    (card_delete_by_id cid db).2.decks = db.decks ∧
    (card_delete_by_id cid db).2.nextDeckId = db.nextDeckId := by
  unfold card_delete_by_id
  split <;> exact ⟨rfl, rfl⟩

theorem add_card_deckpart (uid did : Nat) (form : AddCardForm) (db : DB) :
    (add_card_to_deck uid did form db).2.decks = db.decks ∧
    (add_card_to_deck uid did form db).2.nextDeckId = db.nextDeckId := by
  unfold add_card_to_deck
  split
  · split
    · exact ⟨rfl, rfl⟩
    · split
      · exact ⟨rfl, rfl⟩
      · split <;> exact ⟨rfl, rfl⟩
  · exact ⟨rfl, rfl⟩

theorem update_card_handler_deckpart (uid cid : Nat) (form : UpdateCardForm)
    (db : DB) :
    (update_card uid cid form db).2.decks = db.decks ∧
    (update_card uid cid form db).2.nextDeckId = db.nextDeckId := by
  unfold update_card
  split
  · exact ⟨rfl, rfl⟩
  · split
    · exact ⟨rfl, rfl⟩
    · exact card_update_deckpart cid form.word form.translation form.tip db

theorem delete_card_handler_deckpart (uid cid : Nat) (db : DB) :
    (delete_card uid cid db).2.decks = db.decks ∧
    (delete_card uid cid db).2.nextDeckId = db.nextDeckId := by
  unfold delete_card
  split
  · exact ⟨rfl, rfl⟩
  · split
    · exact ⟨rfl, rfl⟩
    · exact card_delete_deckpart cid db

theorem owners_eq_decks (db : DB)
    (hnd : (db.decks.map fun x => x.id).Nodup)
    (d d2 : DeckR) (hd : d ∈ db.decks) (hd2 : d2 ∈ db.decks)
    (hid : d2.id = d.id) : d2.user_id = d.user_id := by
  have he : d2 = d := List.inj_on_of_nodup_map hnd hd2 hd hid
  rw [he]

theorem owner_pres_append (db : DB)
    (hbound : ∀ x ∈ db.decks, x.id < db.nextDeckId)
    (hnd : (db.decks.map fun x => x.id).Nodup)
    (nm : String) (uo : Nat) (d d2 : DeckR) (hd : d ∈ db.decks)
    (hd2 : d2 ∈ db.decks ++ [⟨db.nextDeckId, nm, uo⟩]) (hid : d2.id = d.id) :
    d2.user_id = d.user_id := by
  rcases List.mem_append.mp hd2 with h | h
  · exact owners_eq_decks db hnd d d2 hd h hid
  · rw [List.mem_singleton] at h
    subst h
    exfalso
    have hb := hbound d hd
    have : db.nextDeckId = d.id := hid
    omega

theorem owner_pres_mapren (db : DB)
    (hnd : (db.decks.map fun x => x.id).Nodup)
    (did : Nat) (nm : String) (d d2 : DeckR) (hd : d ∈ db.decks)
    (hd2 : d2 ∈ db.decks.map
      (fun e => if e.id == did then { e with name := nm } else e))
    (hid : d2.id = d.id) : d2.user_id = d.user_id := by
  obtain ⟨y, hy, hgy⟩ := List.mem_map.mp hd2
  have hyu : d2.user_id = y.user_id := by
    rw [← hgy]
    by_cases h : (y.id == did) = true <;> simp [h]
  have hyi : d2.id = y.id := by
    rw [← hgy]
    by_cases h : (y.id == did) = true <;> simp [h]
  have hyd : y = d := List.inj_on_of_nodup_map hnd hy hd (by rw [← hyi, hid])
  rw [hyu, hyd]

theorem step_preserves_deck_owner (db db2 : DB)
    (hnd : (db.decks.map fun x => x.id).Nodup)
    (hbound : ∀ x ∈ db.decks, x.id < db.nextDeckId)
    (hs : Step db db2)
    (d : DeckR) (hd : d ∈ db.decks) (d2 : DeckR) (hd2 : d2 ∈ db2.decks)
    (hid : d2.id = d.id) : d2.user_id = d.user_id := by
  cases hs with
  | userCreate n e p s db =>
      rw [(user_create_deckpart n e p s db).1] at hd2
      exact owners_eq_decks db hnd d d2 hd hd2 hid
  | userUpdateName uid nm db =>
      rw [(user_update_name_deckpart uid nm db).1] at hd2
      exact owners_eq_decks db hnd d d2 hd hd2 hid
  | userChangePassword uid op np s db =>
      rw [(user_change_password_deckpart uid op np s db).1] at hd2
      exact owners_eq_decks db hnd d d2 hd hd2 hid
  | userDelete uid db =>
      exact owners_eq_decks db hnd d d2 hd (user_delete_decks_sub uid db d2 hd2) hid
  | deckCreate nm uo db =>
      rw [(deck_create_deckpart nm uo db).1] at hd2
      exact owner_pres_append db hbound hnd nm uo d d2 hd hd2 hid
  | deckUpdate did nm db =>
      rcases (deck_update_deckpart did nm db).1 with h | h
      · rw [h] at hd2
        exact owners_eq_decks db hnd d d2 hd hd2 hid
      · rw [h] at hd2
        exact owner_pres_mapren db hnd did nm d d2 hd hd2 hid
  | deckDelete did db =>
      exact owners_eq_decks db hnd d d2 hd (deck_delete_decks_sub did db d2 hd2) hid
  | cardCreate uo w t tp dk db =>
      rw [(card_create_deckpart uo w t tp dk db).1] at hd2
      exact owners_eq_decks db hnd d d2 hd hd2 hid
  | cardUpdate cid w t tp db =>
      rw [(card_update_deckpart cid w t tp db).1] at hd2
      exact owners_eq_decks db hnd d d2 hd hd2 hid
  | cardDelete cid db =>
      rw [(card_delete_deckpart cid db).1] at hd2
      exact owners_eq_decks db hnd d d2 hd hd2 hid
  | handlerAddCard uid did form db =>
      rw [(add_card_deckpart uid did form db).1] at hd2
      exact owners_eq_decks db hnd d d2 hd hd2 hid
  | handlerUpdateCard uid cid form db =>
      rw [(update_card_handler_deckpart uid cid form db).1] at hd2
      exact owners_eq_decks db hnd d d2 hd hd2 hid
  | handlerDeleteCard uid cid db =>
      rw [(delete_card_handler_deckpart uid cid db).1] at hd2
      exact owners_eq_decks db hnd d d2 hd hd2 hid
  | handlerAddDeck uid dn db =>
      unfold add_deck at hd2
      split at hd2
      · rw [(deck_create_deckpart (dn.getD "") uid db).1] at hd2
        exact owner_pres_append db hbound hnd (dn.getD "") uid d d2 hd hd2 hid
      · exact owners_eq_decks db hnd d d2 hd hd2 hid
  | handlerDeleteDeck uid did db =>
      unfold delete_deck at hd2
      split at hd2
      · exact owners_eq_decks db hnd d d2 hd hd2 hid
      · split at hd2
        · exact owners_eq_decks db hnd d d2 hd hd2 hid
        · exact owners_eq_decks db hnd d d2 hd
            (deck_delete_decks_sub did db d2 hd2) hid

theorem step_deckPK (db db2 : DB) (h : DeckPK db) (hs : Step db db2) :
    DeckPK db2 := by
  obtain ⟨hnd, hbound⟩ := h
  cases hs with
  | userCreate n e p s db =>
      obtain ⟨he, hn⟩ := user_create_deckpart n e p s db
      rw [DeckPK, he, hn]
      exact ⟨hnd, hbound⟩
  | userUpdateName uid nm db =>
      obtain ⟨he, hn⟩ := user_update_name_deckpart uid nm db
      rw [DeckPK, he, hn]
      exact ⟨hnd, hbound⟩
  | userChangePassword uid op np s db =>
      obtain ⟨he, hn⟩ := user_change_password_deckpart uid op np s db
      rw [DeckPK, he, hn]
      exact ⟨hnd, hbound⟩
  | userDelete uid db =>
      refine ⟨?_, ?_⟩
      · unfold user_delete_by_id
        split
        · exact (nodupBound_filter (fun x => x.id) db.decks _ db.nextDeckId
            hnd hbound).1
        · exact hnd
      · intro x hx
        rw [user_delete_nextdeck uid db]
        exact hbound x (user_delete_decks_sub uid db x hx)
  | deckCreate nm uo db =>
      obtain ⟨he, hn⟩ := deck_create_deckpart nm uo db
      rw [DeckPK, he, hn]
      exact nodupBound_append (fun x => x.id) db.decks ⟨db.nextDeckId, nm, uo⟩
        db.nextDeckId hnd hbound rfl
  | deckUpdate did nm db =>
      obtain ⟨he, hn⟩ := deck_update_deckpart did nm db
      rcases he with he | he <;> rw [DeckPK, he, hn]
      · exact ⟨hnd, hbound⟩
      · exact nodupBound_map (fun x => x.id) db.decks
          (fun e => if e.id == did then { e with name := nm } else e)
          db.nextDeckId
          (fun a => by by_cases h : (a.id == did) = true <;> simp [h])
          hnd hbound
  | deckDelete did db =>
      refine ⟨?_, ?_⟩
      · unfold deck_delete_by_id
        split
        · exact (nodupBound_filter (fun x => x.id) db.decks _ db.nextDeckId
            hnd hbound).1
        · exact hnd
      · intro x hx
        rw [deck_delete_nextdeck did db]
        exact hbound x (deck_delete_decks_sub did db x hx)
  | cardCreate uo w t tp dk db =>
      obtain ⟨he, hn⟩ := card_create_deckpart uo w t tp dk db
      rw [DeckPK, he, hn]
      exact ⟨hnd, hbound⟩
  | cardUpdate cid w t tp db =>
      obtain ⟨he, hn⟩ := card_update_deckpart cid w t tp db
      rw [DeckPK, he, hn]
      exact ⟨hnd, hbound⟩
  | cardDelete cid db =>
      obtain ⟨he, hn⟩ := card_delete_deckpart cid db
      rw [DeckPK, he, hn]
      exact ⟨hnd, hbound⟩
  | handlerAddCard uid did form db =>
      obtain ⟨he, hn⟩ := add_card_deckpart uid did form db
      rw [DeckPK, he, hn]
      exact ⟨hnd, hbound⟩
  | handlerUpdateCard uid cid form db =>
      obtain ⟨he, hn⟩ := update_card_handler_deckpart uid cid form db
      rw [DeckPK, he, hn]
      exact ⟨hnd, hbound⟩
  | handlerDeleteCard uid cid db =>
      obtain ⟨he, hn⟩ := delete_card_handler_deckpart uid cid db
      rw [DeckPK, he, hn]
      exact ⟨hnd, hbound⟩
  | handlerAddDeck uid dn db =>
      unfold add_deck
      split
      · obtain ⟨he, hn⟩ := deck_create_deckpart (dn.getD "") uid db
        rw [DeckPK, he, hn]
        exact nodupBound_append (fun x => x.id) db.decks
          ⟨db.nextDeckId, dn.getD "", uid⟩ db.nextDeckId hnd hbound rfl
      · exact ⟨hnd, hbound⟩
  | handlerDeleteDeck uid did db =>
      unfold delete_deck
      split
      · exact ⟨hnd, hbound⟩
      · split
        · exact ⟨hnd, hbound⟩
        · refine ⟨?_, ?_⟩
          · unfold deck_delete_by_id
            split
            · exact (nodupBound_filter (fun x => x.id) db.decks _
                db.nextDeckId hnd hbound).1
            · exact hnd
          · intro x hx
            rw [deck_delete_nextdeck did db]
            exact hbound x (deck_delete_decks_sub did db x hx)

theorem deckPK_empty : DeckPK DB.empty := by
  constructor
  · exact List.nodup_nil
  · intro x hx
    simp [DB.empty] at hx

theorem reachable_deckPK (db : DB) (hr : Reachable db) : DeckPK db := by
  induction hr with
  | refl => exact deckPK_empty
  | tail _ hstep ih => exact step_deckPK _ _ ih hstep

/-! ### Sample data for concrete witnesses -/

/-- A small concrete store with two users, a deck and cards each:
Alice (id 1) owns deck 1 holding cards 1 and 3; Bob (id 2) owns deck 2
holding card 2. -/
def dbSample : DB :=
  ⟨[⟨1, "Alice", "alice@example.com", "h1"⟩, ⟨2, "Bob", "bob@example.com", "h2"⟩],
   [⟨1, "General", 1⟩, ⟨2, "Bob deck", 2⟩],
   [⟨1, 1, "hello", "привіт", some "greet", some 1⟩,
    ⟨2, 2, "world", "світ", none, some 2⟩,
    ⟨3, 1, "good", "добре", none, some 1⟩],
   3, 3, 4⟩

/-- A one-card store whose card contains no LIKE wildcard characters. -/
def dbWild : DB :=
  ⟨[⟨1, "A", "a@example.com", "h"⟩], [], [⟨1, 1, "a", "b", none, none⟩], 2, 1, 2⟩

/-! ### Claim theorems -/

/-- C6 (counterexample): on the search string `"_"` — a LIKE wildcard —
`card_filter` returns a card although `"_"` occurs nowhere in it as a
substring, so `card_filter` is not case-insensitive substring matching
for every search string. -/
theorem card_filter_wildcard_counterexample :
    card_filter "_" dbWild ≠ card_filter_spec "_" dbWild := by
  decide

/-- C6 (amended): for every search string free of the SQL LIKE wildcard
characters `%` and `_`, `card_filter` returns exactly the cards whose
word, translation, or tip contains the string as a case-insensitive
substring, in stored order. -/
theorem card_filter_eq_substring_spec (sub : String) (db : DB)
    (h : noWild sub.data) : card_filter sub db = card_filter_spec sub db := by
  simp only [card_filter, card_filter_spec]
  apply List.filter_congr
  intro c _
  cases htip : c.tip with
  | none =>
      simp only [likeTip, occursTip, List.cons_append]
      rw [likeMatch_wrap sub.data h c.word.data,
        likeMatch_wrap sub.data h c.translation.data]
  | some v =>
      simp only [likeTip, occursTip, List.cons_append]
      rw [likeMatch_wrap sub.data h c.word.data,
        likeMatch_wrap sub.data h c.translation.data,
        likeMatch_wrap sub.data h v.data]

/-- C6 (witness): filtering `dbSample` on "orl" (wildcard-free) agrees
with the spec-side substring filter and returns exactly the
`world`/`світ` card. -/
theorem card_filter_eq_substring_spec_witness :
    card_filter "orl" dbSample = card_filter_spec "orl" dbSample ∧
    card_filter "orl" dbSample = [⟨2, 2, "world", "світ", none, some 2⟩] :=
  ⟨card_filter_eq_substring_spec "orl" dbSample (by unfold noWild; decide),
   by decide⟩

/-- C3: `card_update` writes exactly the supplied (non-`None`) fields,
keeps each omitted field at its previous value, never touches `id`,
`user_id` or `deck_id` (both in the returned row and in the store), and
leaves every other card in the table. -/
theorem card_update_partial_fields
    (cid : Nat) (w t tp : Option String) (db : DB) (c : CardR)
    (hget : card_get_by_id cid db = some c)
    (d : CardR) (hd : d ∈ db.cards) (hdne : d.id ≠ cid) :
    (card_update cid w t tp db).1 =
        some ⟨c.id, c.user_id, w.getD c.word, t.getD c.translation,
              tipUpd tp c.tip, c.deck_id⟩ ∧
    card_get_by_id cid (card_update cid w t tp db).2 =
        some ⟨c.id, c.user_id, w.getD c.word, t.getD c.translation,
              tipUpd tp c.tip, c.deck_id⟩ ∧
    d ∈ (card_update cid w t tp db).2.cards := by
  refine ⟨?_, card_update_get_after cid w t tp db c hget, ?_⟩
  · rw [card_update_eq cid w t tp db c hget]
    show some (applyCardUpd w t tp c) = _
    rw [applyCardUpd_eq]
  · rw [card_update_eq cid w t tp db c hget]
    have hne : (d.id == cid) = false := beq_eq_false_iff_ne.mpr hdne
    have hmem := List.mem_map_of_mem
      (fun e => if e.id == cid then applyCardUpd w t tp e else e) hd
    simp only [hne, Bool.false_eq_true, if_false] at hmem
    exact hmem

/-- C3 (witness): updating only the word of card 1 in `dbSample` leaves
its translation, tip, ids and the other cards untouched. -/
theorem card_update_partial_fields_witness :
    (card_update 1 (some "updated") none none dbSample).1 =
        some ⟨1, 1, "updated", "привіт", some "greet", some 1⟩ ∧
    card_get_by_id 1 (card_update 1 (some "updated") none none dbSample).2 =
        some ⟨1, 1, "updated", "привіт", some "greet", some 1⟩ ∧
    (⟨2, 2, "world", "світ", none, some 2⟩ : CardR) ∈
        (card_update 1 (some "updated") none none dbSample).2.cards :=
  card_update_partial_fields 1 (some "updated") none none dbSample
    ⟨1, 1, "hello", "привіт", some "greet", some 1⟩ rfl
    ⟨2, 2, "world", "світ", none, some 2⟩ (by decide) (by decide)

/-- C10: the `update_card` handler passes the form fields straight
through to `card_update`, so a present-but-empty field (`some ""`) does
overwrite the stored value with the empty string, while an absent field
(`none`) leaves it unchanged — a card's word or translation can become
empty through `POST /update_card/{card_id}`. -/
theorem update_card_empty_string_overwrites
    (uid cid : Nat) (form : UpdateCardForm) (db : DB) (card : CardR)
    (hget : card_get_by_id cid db = some card) (hown : card.user_id = uid) :
    update_card uid cid form db =
      (.redirectShowCards card.deck_id msgCardUpdated "success",
       (card_update cid form.word form.translation form.tip db).2) ∧
    card_get_by_id cid (card_update cid form.word form.translation form.tip db).2 =
      some ⟨card.id, card.user_id, form.word.getD card.word,
            form.translation.getD card.translation,
            tipUpd form.tip card.tip, card.deck_id⟩ := by
  constructor
  · subst hown
    simp only [update_card, hget, bne_self_eq_false, Bool.false_eq_true,
      if_false]
  · exact card_update_get_after cid form.word form.translation form.tip db
      card hget

/-- C10 (witness): posting an empty `word` field for card 1 of
`dbSample` stores the empty string as its word. -/
theorem update_card_empty_string_overwrites_witness :
    update_card 1 1 ⟨some "", none, none⟩ dbSample =
      (.redirectShowCards (some 1) msgCardUpdated "success",
       (card_update 1 (some "") none none dbSample).2) ∧
    card_get_by_id 1 (card_update 1 (some "") none none dbSample).2 =
      some ⟨1, 1, "", "привіт", some "greet", some 1⟩ :=
  update_card_empty_string_overwrites 1 1 ⟨some "", none, none⟩ dbSample
    ⟨1, 1, "hello", "привіт", some "greet", some 1⟩ rfl rfl

/-- C8: each delete accessor returns `true` exactly when a row with the
id exists (and then the row is gone afterwards), and returns `false`
with the whole store unchanged when no such row exists; no exception is
modelled because none can be raised. -/
theorem delete_by_id_semantics (i : Nat) (db : DB) :
    ((user_delete_by_id i db).1 = (user_get_by_id i db).isSome) ∧
    ((user_get_by_id i db).isSome = false → user_delete_by_id i db = (false, db)) ∧
    ((user_get_by_id i db).isSome = true →
        user_get_by_id i (user_delete_by_id i db).2 = none) ∧
    ((deck_delete_by_id i db).1 = (deck_get_by_id i db).isSome) ∧
    ((deck_get_by_id i db).isSome = false → deck_delete_by_id i db = (false, db)) ∧
    ((deck_get_by_id i db).isSome = true →
        deck_get_by_id i (deck_delete_by_id i db).2 = none) ∧
    ((card_delete_by_id i db).1 = (card_get_by_id i db).isSome) ∧
    ((card_get_by_id i db).isSome = false → card_delete_by_id i db = (false, db)) ∧
    ((card_get_by_id i db).isSome = true →
        card_get_by_id i (card_delete_by_id i db).2 = none) := by
  refine ⟨?_, ?_, ?_, ?_, ?_, ?_, ?_, ?_, ?_⟩
  · unfold user_delete_by_id user_get_by_id
    cases h : db.users.find? (fun u => u.id == i) <;> simp [h]
  · intro h
    unfold user_get_by_id at h
    cases hf : db.users.find? (fun u => u.id == i) with
    | none => simp [user_delete_by_id, hf]
    | some u => rw [hf] at h; simp at h
  · intro h
    unfold user_get_by_id at h
    cases hf : db.users.find? (fun u => u.id == i) with
    | none => rw [hf] at h; simp at h
    | some u =>
        unfold user_delete_by_id user_get_by_id
        rw [hf]
        exact find?_filter_not_self db.users (fun u => u.id == i)
  · unfold deck_delete_by_id deck_get_by_id
    cases h : db.decks.find? (fun d => d.id == i) <;> simp [h]
  · intro h
    unfold deck_get_by_id at h
    cases hf : db.decks.find? (fun d => d.id == i) with
    | none => simp [deck_delete_by_id, hf]
    | some d => rw [hf] at h; simp at h
  · intro h
    unfold deck_get_by_id at h
    cases hf : db.decks.find? (fun d => d.id == i) with
    | none => rw [hf] at h; simp at h
    | some d =>
        unfold deck_delete_by_id deck_get_by_id
        rw [hf]
        exact find?_filter_not_self db.decks (fun d => d.id == i)
  · unfold card_delete_by_id card_get_by_id
    cases h : db.cards.find? (fun c => c.id == i) <;> simp [h]
  · intro h
    unfold card_get_by_id at h
    cases hf : db.cards.find? (fun c => c.id == i) with
    | none => simp [card_delete_by_id, hf]
    | some c => rw [hf] at h; simp at h
  · intro h
    unfold card_get_by_id at h
    cases hf : db.cards.find? (fun c => c.id == i) with
    | none => rw [hf] at h; simp at h
    | some c =>
        unfold card_delete_by_id card_get_by_id
        rw [hf]
        exact find?_filter_not_self db.cards (fun c => c.id == i)

/-- C8 (witness): deleting the nonexistent id 77 in `dbSample` reports
`false` and changes nothing, for all three tables. -/
theorem delete_by_id_semantics_witness :
    user_delete_by_id 77 dbSample = (false, dbSample) ∧
    deck_delete_by_id 77 dbSample = (false, dbSample) ∧
    card_delete_by_id 77 dbSample = (false, dbSample) :=
  ⟨(delete_by_id_semantics 77 dbSample).2.1 (by decide),
   (delete_by_id_semantics 77 dbSample).2.2.2.2.1 (by decide),
   (delete_by_id_semantics 77 dbSample).2.2.2.2.2.2.2.1 (by decide)⟩

/-- C4: `user_create` returns `None` and leaves the user table unchanged
when the email is already taken; otherwise it inserts and returns a user
whose stored password is the salted hash of the given password, which is
never the plaintext password itself. -/
theorem user_create_unique_email (n e p : String) (salt : Nat) (db : DB) :
    (db.users.any (fun u => u.email == e) = true →
        user_create n e p salt db = (none, db)) ∧
    (db.users.any (fun u => u.email == e) = false →
        user_create n e p salt db =
          (some ⟨db.nextUserId, n, e, pwd_hash salt p⟩,
           { db with
              users := db.users ++ [⟨db.nextUserId, n, e, pwd_hash salt p⟩],
              nextUserId := db.nextUserId + 1 }) ∧
        (user_create n e p salt db).2.users.length = db.users.length + 1 ∧
        pwd_hash salt p ≠ p) := by
  constructor
  · intro h
    simp [user_create, h]
  · intro h
    refine ⟨?_, ?_, pwd_hash_ne_plain salt p⟩
    · simp [user_create, h]
    · simp [user_create, h]

/-- C2: deleting a deck removes it and every card filed in it (the card
is no longer found), leaving no card that still references the deck;
deleting a user removes every deck and every card the user owns, and no
surviving card references any of the removed decks. -/
theorem cascading_delete
    (db : DB)
    (hcards : (db.cards.map fun x => x.id).Nodup)
    (hdecks : (db.decks.map fun x => x.id).Nodup)
    (d : DeckR) (hd : d ∈ db.decks)
    (c : CardR) (hc : c ∈ db.cards) (hcd : c.deck_id = some d.id)
    (u : UserR) (hu : u ∈ db.users)
    (d2 : DeckR) (hd2 : d2 ∈ db.decks) (hd2u : d2.user_id = u.id)
    (c2 : CardR) (hc2 : c2 ∈ db.cards) (hc2u : c2.user_id = u.id)
    (c3 : CardR) (hc3 : c3 ∈ (user_delete_by_id u.id db).2.cards)
    (d3 : DeckR) (hd3 : d3 ∈ db.decks) (hd3u : d3.user_id = u.id)
    (c4 : CardR) (hc4 : c4 ∈ (deck_delete_by_id d.id db).2.cards) :
    (deck_delete_by_id d.id db).1 = true ∧
    deck_get_by_id d.id (deck_delete_by_id d.id db).2 = none ∧
    card_get_by_id c.id (deck_delete_by_id d.id db).2 = none ∧
    c4.deck_id ≠ some d.id ∧
    (user_delete_by_id u.id db).1 = true ∧
    deck_get_by_id d2.id (user_delete_by_id u.id db).2 = none ∧
    card_get_by_id c2.id (user_delete_by_id u.id db).2 = none ∧
    c3.user_id ≠ u.id ∧ c3.deck_id ≠ some d3.id := by
  obtain ⟨e, he⟩ :=
    find?_mem_pred db.decks (fun x => x.id == d.id) d hd (by simp)
  have hdel : deck_delete_by_id d.id db =
      (true,
       { db with
          decks := db.decks.filter (fun x => !(x.id == d.id)),
          cards := db.cards.filter (fun x => !(x.deck_id == some d.id)) }) := by
    unfold deck_delete_by_id
    rw [he]
  obtain ⟨eu, heu⟩ :=
    find?_mem_pred db.users (fun x => x.id == u.id) u hu (by simp)
  have hdelu : user_delete_by_id u.id db =
      (true,
       { db with
          users := db.users.filter (fun x => !(x.id == u.id)),
          decks := db.decks.filter (fun x => !(x.user_id == u.id)),
          cards := db.cards.filter (fun x =>
            !(x.user_id == u.id) &&
            !(db.decks.any (fun dd =>
              dd.user_id == u.id && x.deck_id == some dd.id))) }) := by
    unfold user_delete_by_id
    rw [heu]
  rw [hdelu] at hc3
  rw [hdel] at hc4
  have hmem3 := List.mem_filter.mp hc3
  have hmem4 := List.mem_filter.mp hc4
  have hsplit3 : (!(c3.user_id == u.id)) = true ∧
      (!(db.decks.any (fun dd =>
        dd.user_id == u.id && c3.deck_id == some dd.id))) = true := by
    have h2 := hmem3.2
    rw [Bool.and_eq_true] at h2
    exact h2
  refine ⟨?_, ?_, ?_, ?_, ?_, ?_, ?_, ?_, ?_⟩
  · rw [hdel]
  · rw [hdel]
    exact find?_filter_not_self db.decks (fun x => x.id == d.id)
  · rw [hdel]
    apply List.find?_eq_none.mpr
    intro x hx hpx
    have hmem := List.mem_filter.mp hx
    have hxid : x.id = c.id := by simpa using hpx
    have hxc : x = c := List.inj_on_of_nodup_map hcards hmem.1 hc hxid
    subst hxc
    rw [hcd] at hmem
    simp at hmem
  · intro hh
    rw [hh] at hmem4
    simp at hmem4
  · rw [hdelu]
  · rw [hdelu]
    apply List.find?_eq_none.mpr
    intro x hx hpx
    have hmem := List.mem_filter.mp hx
    have hxid : x.id = d2.id := by simpa using hpx
    have hxd : x = d2 := List.inj_on_of_nodup_map hdecks hmem.1 hd2 hxid
    subst hxd
    rw [hd2u] at hmem
    simp at hmem
  · rw [hdelu]
    apply List.find?_eq_none.mpr
    intro x hx hpx
    have hmem := List.mem_filter.mp hx
    have hxid : x.id = c2.id := by simpa using hpx
    have hxc : x = c2 := List.inj_on_of_nodup_map hcards hmem.1 hc2 hxid
    subst hxc
    have h2 := hmem.2
    rw [Bool.and_eq_true] at h2
    have h3 := h2.1
    rw [hc2u] at h3
    simp at h3
  · intro hh
    rw [hh] at hsplit3
    simp at hsplit3
  · intro hh
    have hany : (db.decks.any (fun dd =>
        dd.user_id == u.id && c3.deck_id == some dd.id)) = false := by
      have h2 := hsplit3.2
      simpa using h2
    have h3 := List.any_eq_false.mp hany d3 hd3
    rw [hd3u, hh] at h3
    simp at h3

/-- C2 (witness): deleting deck 1 of `dbSample` also deletes card 1
filed in it; deleting user 1 (Alice) deletes her deck 1 and card 1; the
surviving card 2 belongs to Bob and references none of the removed
decks. -/
theorem cascading_delete_witness :
    (deck_delete_by_id 1 dbSample).1 = true ∧
    deck_get_by_id 1 (deck_delete_by_id 1 dbSample).2 = none ∧
    card_get_by_id 1 (deck_delete_by_id 1 dbSample).2 = none ∧
    (⟨2, 2, "world", "світ", none, some 2⟩ : CardR).deck_id ≠ some 1 ∧
    (user_delete_by_id 1 dbSample).1 = true ∧
    deck_get_by_id 1 (user_delete_by_id 1 dbSample).2 = none ∧
    card_get_by_id 1 (user_delete_by_id 1 dbSample).2 = none ∧
    (⟨2, 2, "world", "світ", none, some 2⟩ : CardR).user_id ≠ 1 ∧
    (⟨2, 2, "world", "світ", none, some 2⟩ : CardR).deck_id ≠ some 1 :=
  cascading_delete dbSample (by decide) (by decide)
    ⟨1, "General", 1⟩ (by decide)
    ⟨1, 1, "hello", "привіт", some "greet", some 1⟩ (by decide) rfl
    ⟨1, "Alice", "alice@example.com", "h1"⟩ (by decide)
    ⟨1, "General", 1⟩ (by decide) rfl
    ⟨1, 1, "hello", "привіт", some "greet", some 1⟩ (by decide) rfl
    ⟨2, 2, "world", "світ", none, some 2⟩ (by decide)
    ⟨1, "General", 1⟩ (by decide) rfl
    ⟨2, 2, "world", "світ", none, some 2⟩ (by decide)

/-- C7: for the owner of a deck, `GET /review/{deck_id}` renders the
shuffled value records of the deck's cards without touching the store,
and the shuffled list is a permutation of the deck's card records — each
original card appears exactly once. -/
theorem review_deck_permutation
    (uid did : Nat) (picks : List Nat) (db : DB) (deck : DeckR)
    (hget : deck_get_by_id did db = some deck) (hown : deck.user_id = uid) :
    review_deck uid did picks db =
      (.renderReview deck
        (shuffle picks ((deckCards did db).map CardR.to_dict)), db) ∧
    (shuffle picks ((deckCards did db).map CardR.to_dict)).Perm
      ((deckCards did db).map CardR.to_dict) := by
  constructor
  · subst hown
    simp [review_deck, hget]
  · exact shuffle_perm picks _

/-- C7 (witness): reviewing deck 1 of `dbSample` with the random draws
`[1, 0]` leaves the store unchanged and presents a permutation of its
two card records. -/
theorem review_deck_permutation_witness :
    review_deck 1 1 [1, 0] dbSample =
      (.renderReview ⟨1, "General", 1⟩
        (shuffle [1, 0] ((deckCards 1 dbSample).map CardR.to_dict)), dbSample) ∧
    (shuffle [1, 0] ((deckCards 1 dbSample).map CardR.to_dict)).Perm
      ((deckCards 1 dbSample).map CardR.to_dict) :=
  review_deck_permutation 1 1 [1, 0] dbSample ⟨1, "General", 1⟩ rfl rfl

/-- C1: for every deck/card request handler, a target owned by a
different user produces exactly the outcome of a nonexistent target: the
same "not found or no access" flash, the same redirect to the index
page, and no state change. -/
theorem ownership_mismatch_eq_not_found
    (db : DB) (uid d1 d2 c1 c2 : Nat) (deckX : DeckR) (cardX : CardR)
    (form : AddCardForm) (uform : UpdateCardForm) (picks : List Nat)
    (hd1 : deck_get_by_id d1 db = some deckX) (hd1o : deckX.user_id ≠ uid)
    (hd2 : deck_get_by_id d2 db = none)
    (hc1 : card_get_by_id c1 db = some cardX) (hc1o : cardX.user_id ≠ uid)
    (hc2 : card_get_by_id c2 db = none) :
    show_cards_in_deck uid d1 db = (.redirectIndex msgDeckNF "danger", db) ∧
    show_cards_in_deck uid d2 db = (.redirectIndex msgDeckNF "danger", db) ∧
    add_card_to_deck uid d1 form db = add_card_to_deck uid d2 form db ∧
    (add_card_to_deck uid d1 form db).2 = db ∧
    delete_deck uid d1 db = (.redirectIndex msgDeckNF "danger", db) ∧
    delete_deck uid d2 db = (.redirectIndex msgDeckNF "danger", db) ∧
    review_deck uid d1 picks db = (.redirectIndex msgDeckNF "danger", db) ∧
    review_deck uid d2 picks db = (.redirectIndex msgDeckNF "danger", db) ∧
    edit_card uid c1 db = (.redirectIndex msgCardNF "danger", db) ∧
    edit_card uid c2 db = (.redirectIndex msgCardNF "danger", db) ∧
    update_card uid c1 uform db = (.redirectIndex msgCardNF "danger", db) ∧
    update_card uid c2 uform db = (.redirectIndex msgCardNF "danger", db) ∧
    delete_card uid c1 db = (.redirectIndex msgCardNF "danger", db) ∧
    delete_card uid c2 db = (.redirectIndex msgCardNF "danger", db) := by
  have hb1 : (deckX.user_id != uid) = true := by simpa using hd1o
  have hb2 : (cardX.user_id != uid) = true := by simpa using hc1o
  refine ⟨?_, ?_, ?_, ?_, ?_, ?_, ?_, ?_, ?_, ?_, ?_, ?_, ?_, ?_⟩
  · simp [show_cards_in_deck, hd1, hb1]
  · simp [show_cards_in_deck, hd2]
  · cases hw : form.word <;> cases ht : form.translation <;>
      simp [add_card_to_deck, hd1, hd2, hb1, hw, ht]
  · cases hw : form.word <;> cases ht : form.translation <;>
      simp [add_card_to_deck, hd1, hb1, hw, ht]
  · simp [delete_deck, hd1, hb1]
  · simp [delete_deck, hd2]
  · simp [review_deck, hd1, hb1]
  · simp [review_deck, hd2]
  · simp [edit_card, hc1, hb2]
  · simp [edit_card, hc2]
  · simp [update_card, hc1, hb2]
  · simp [update_card, hc2]
  · simp [delete_card, hc1, hb2]
  · simp [delete_card, hc2]

/-- C1 (witness): for Alice (user 1), Bob's deck 2 / card 2 behave
exactly like the nonexistent deck 99 / card 99 in every handler. -/
theorem ownership_mismatch_eq_not_found_witness :
    show_cards_in_deck 1 2 dbSample = (.redirectIndex msgDeckNF "danger", dbSample) ∧
    show_cards_in_deck 1 99 dbSample = (.redirectIndex msgDeckNF "danger", dbSample) ∧
    add_card_to_deck 1 2 ⟨some "w", some "t", none⟩ dbSample =
      add_card_to_deck 1 99 ⟨some "w", some "t", none⟩ dbSample ∧
    (add_card_to_deck 1 2 ⟨some "w", some "t", none⟩ dbSample).2 = dbSample ∧
    delete_deck 1 2 dbSample = (.redirectIndex msgDeckNF "danger", dbSample) ∧
    delete_deck 1 99 dbSample = (.redirectIndex msgDeckNF "danger", dbSample) ∧
    review_deck 1 2 [] dbSample = (.redirectIndex msgDeckNF "danger", dbSample) ∧
    review_deck 1 99 [] dbSample = (.redirectIndex msgDeckNF "danger", dbSample) ∧
    edit_card 1 2 dbSample = (.redirectIndex msgCardNF "danger", dbSample) ∧
    edit_card 1 99 dbSample = (.redirectIndex msgCardNF "danger", dbSample) ∧
    update_card 1 2 ⟨none, none, none⟩ dbSample =
      (.redirectIndex msgCardNF "danger", dbSample) ∧
    update_card 1 99 ⟨none, none, none⟩ dbSample =
      (.redirectIndex msgCardNF "danger", dbSample) ∧
    delete_card 1 2 dbSample = (.redirectIndex msgCardNF "danger", dbSample) ∧
    delete_card 1 99 dbSample = (.redirectIndex msgCardNF "danger", dbSample) :=
  ownership_mismatch_eq_not_found dbSample 1 2 99 2 99
    ⟨2, "Bob deck", 2⟩ ⟨2, 2, "world", "світ", none, some 2⟩
    ⟨some "w", some "t", none⟩ ⟨none, none, none⟩ []
    rfl (by decide) rfl rfl (by decide) rfl

/-- C5 (counterexample): a POST to `/add_card/1` by the deck's owner
with the `word` field absent from the form is rejected by
`request.form["word"]` with a 400 Bad Request — not with the form-error
flash and redirect the claim describes (no card is created either way). -/
theorem add_card_absent_field_counterexample :
    add_card_to_deck 1 1 ⟨none, some "x", none⟩ dbSample =
      (HResult.badRequest, dbSample) ∧
    add_card_to_deck 1 1 ⟨none, some "x", none⟩ dbSample ≠
      (HResult.redirectShowCards (some 1) msgRequired "danger", dbSample) ∧
    add_card_to_deck 1 1 ⟨none, some "x", none⟩ dbSample ≠
      (HResult.redirectIndex msgDeckNF "danger", dbSample) := by
  refine ⟨rfl, by decide, by decide⟩

/-- C5 (amended): when the requesting user owns the deck, a request
whose `word` or `translation` field is absent fails with a 400 Bad
Request before any state change, and a request whose `word` or
`translation` field is present but empty fails with the "word and
translation are required" flash and a redirect to the deck page; in both
cases no card is created. -/
theorem add_card_missing_or_empty
    (uid did : Nat) (form : AddCardForm) (db : DB) (deck : DeckR)
    (hget : deck_get_by_id did db = some deck) (hown : deck.user_id = uid)
    (h : form.word = none ∨ form.translation = none ∨
         form.word = some "" ∨ form.translation = some "") :
    add_card_to_deck uid did form db =
      ((if form.word = none ∨ form.translation = none then HResult.badRequest
        else HResult.redirectShowCards (some did) msgRequired "danger"), db) := by
  subst hown
  obtain ⟨fw, ft, ftip⟩ := form
  cases fw with
  | none => simp [add_card_to_deck]
  | some w =>
      cases ft with
      | none => simp [add_card_to_deck]
      | some t =>
          have hwt : w = "" ∨ t = "" := by
            rcases h with h | h | h | h
            · exact absurd h (by simp)
            · exact absurd h (by simp)
            · exact Or.inl (by injection h)
            · exact Or.inr (by injection h)
          rcases hwt with h1 | h1 <;>
            subst h1 <;>
            simp [add_card_to_deck, hget]

/-- C5 (witness): for deck 1 owned by Alice, an absent `word` field
yields the 400 outcome and a present-but-empty `word` field yields the
form-error flash and redirect; the store is unchanged in both cases. -/
theorem add_card_missing_or_empty_witness :
    add_card_to_deck 1 1 ⟨none, some "x", none⟩ dbSample =
      (HResult.badRequest, dbSample) ∧
    add_card_to_deck 1 1 ⟨some "", some "x", none⟩ dbSample =
      (HResult.redirectShowCards (some 1) msgRequired "danger", dbSample) :=
  ⟨add_card_missing_or_empty 1 1 ⟨none, some "x", none⟩ dbSample
      ⟨1, "General", 1⟩ rfl rfl (Or.inl rfl),
   add_card_missing_or_empty 1 1 ⟨some "", some "x", none⟩ dbSample
      ⟨1, "General", 1⟩ rfl rfl (Or.inr (Or.inr (Or.inl rfl)))⟩

/-- C9: in any state the application can reach, no transition — CRUD
accessor or request handler — changes the owning user id of an existing
deck: a deck present before and after a step (same id) has the same
owner. -/
theorem deck_owner_never_changes
    (db db2 : DB) (hr : Reachable db) (hs : Step db db2)
    (d : DeckR) (hd : d ∈ db.decks) (d2 : DeckR) (hd2 : d2 ∈ db2.decks)
    (hid : d2.id = d.id) : d2.user_id = d.user_id := by
  obtain ⟨hnd, hbound⟩ := reachable_deckPK db hr
  exact step_preserves_deck_owner db db2 hnd hbound hs d hd d2 hd2 hid

/-- C9 (witness): creating a deck for user 1 in the fresh store and then
renaming it through `deck_update` keeps its owner (user 1) intact. -/
theorem deck_owner_never_changes_witness :
    (⟨1, "Renamed", 1⟩ : DeckR).user_id = (⟨1, "General", 1⟩ : DeckR).user_id :=
  deck_owner_never_changes
    (deck_create "General" 1 DB.empty).2
    (deck_update 1 "Renamed" (deck_create "General" 1 DB.empty).2).2
    (Relation.ReflTransGen.single (Step.deckCreate "General" 1 DB.empty))
    (Step.deckUpdate 1 "Renamed" (deck_create "General" 1 DB.empty).2)
    ⟨1, "General", 1⟩ (by decide)
    ⟨1, "Renamed", 1⟩ (by decide)
    rfl

/-- C4 (witness): re-registering Alice's email creates nothing, while a
fresh email grows the user table by one with a hashed password. -/
theorem user_create_unique_email_witness :
    user_create "X" "alice@example.com" "pw" 9 dbSample = (none, dbSample) ∧
    (user_create "X" "new@example.com" "pw" 9 dbSample).2.users.length =
      dbSample.users.length + 1 ∧
    pwd_hash 9 "pw" ≠ "pw" :=
  ⟨(user_create_unique_email "X" "alice@example.com" "pw" 9 dbSample).1 (by decide),
   ((user_create_unique_email "X" "new@example.com" "pw" 9 dbSample).2 (by decide)).2.1,
   ((user_create_unique_email "X" "new@example.com" "pw" 9 dbSample).2 (by decide)).2.2⟩

end Linguist
